import Mathlib

/-!
Verification of the rubric pipeline of the `agent-skill-adapter` backend:
specification parsing (`skill_loader.py`), rubric scoring (`evaluator.py`)
and synthetic training-data generation (`data_generator.py`), embedded
shallowly over `List Char` strings with rational scores.
-/

/-- Strings are modelled as lists of characters. -/
abbrev Str := List Char

/-- Coerce a Lean string literal to the `Str` model. -/
def S (s : String) : Str := s.data

/-- ASCII whitespace, as recognised by Python's `str.strip`, `str.split`,
`str.splitlines` and the regex class `\s` on the ASCII range. -/
def isSpace (c : Char) : Bool :=
  c = ' ' || c = '\t' || c = '\n' || c = '\x0d' || c = '\x0b' || c = '\x0c'

/-- ASCII decimal digit, the regex class `\d` on the ASCII range. -/
def isDigit (c : Char) : Bool := '0' ≤ c && c ≤ '9'

/-- ASCII lower-casing of one character (Python `str.lower` on ASCII). -/
def asciiLower (c : Char) : Char :=
  match c with
  | 'A' => 'a' | 'B' => 'b' | 'C' => 'c' | 'D' => 'd' | 'E' => 'e' | 'F' => 'f'
  | 'G' => 'g' | 'H' => 'h' | 'I' => 'i' | 'J' => 'j' | 'K' => 'k' | 'L' => 'l'
  | 'M' => 'm' | 'N' => 'n' | 'O' => 'o' | 'P' => 'p' | 'Q' => 'q' | 'R' => 'r'
  | 'S' => 's' | 'T' => 't' | 'U' => 'u' | 'V' => 'v' | 'W' => 'w' | 'X' => 'x'
  | 'Y' => 'y' | 'Z' => 'z' | other => other

/-- ASCII upper-casing of one character (Python `str.upper` on ASCII). -/
def asciiUpper (c : Char) : Char :=
  match c with
  | 'a' => 'A' | 'b' => 'B' | 'c' => 'C' | 'd' => 'D' | 'e' => 'E' | 'f' => 'F'
  | 'g' => 'G' | 'h' => 'H' | 'i' => 'I' | 'j' => 'J' | 'k' => 'K' | 'l' => 'L'
  | 'm' => 'M' | 'n' => 'N' | 'o' => 'O' | 'p' => 'P' | 'q' => 'Q' | 'r' => 'R'
  | 's' => 'S' | 't' => 'T' | 'u' => 'U' | 'v' => 'V' | 'w' => 'W' | 'x' => 'X'
  | 'y' => 'Y' | 'z' => 'Z' | other => other

/-- Python `s.lower()`. -/
def lowerS (s : Str) : Str := s.map asciiLower

/-- Python `s.strip(chars)` generalised to a predicate: remove matching
characters from both edges. -/
def stripEdges (p : Char → Bool) (s : Str) : Str :=
  ((s.dropWhile p).reverse.dropWhile p).reverse

/-- Python `s.strip()` (whitespace removed from both edges). -/
def stripWS (s : Str) : Str := stripEdges isSpace s

/-- The punctuation set of `evaluator._extract_keywords`'s `w.strip(".,!?;:")`. -/
def isPunct (c : Char) : Bool :=
  c = '.' || c = ',' || c = '!' || c = '?' || c = ';' || c = ':'

/-- Python `pat in s` fails nowhere: Boolean prefix test. -/
def isPrefixB : Str → Str → Bool
  | [], _ => true
  | _ :: _, [] => false
  | p :: ps, c :: cs => p = c && isPrefixB ps cs

/-- Python substring containment `pat in s`. -/
def isSub (pat : Str) : Str → Bool
  | [] => isPrefixB pat []
  | c :: cs => isPrefixB pat (c :: cs) || isSub pat cs

/-- Python `s.split()` helper: accumulate the current word (reversed). -/
def splitWSGo : Str → Str → List Str
  | [], acc => if acc = [] then [] else [acc.reverse]
  | c :: cs, acc =>
    if isSpace c then
      if acc = [] then splitWSGo cs [] else acc.reverse :: splitWSGo cs []
    else splitWSGo cs (c :: acc)

/-- Python `s.split()`: whitespace-delimited tokens, empties dropped. -/
def splitWS (s : Str) : List Str := splitWSGo s []

/-- Python `s.splitlines()` helper (line terminators `\n`, `\r\n`, `\r`). -/
def splitLinesGo : Str → Str → List Str
  | [], acc => if acc = [] then [] else [acc.reverse]
  | '\x0d' :: '\n' :: cs, acc => acc.reverse :: splitLinesGo cs []
  | '\n' :: cs, acc => acc.reverse :: splitLinesGo cs []
  | '\x0d' :: cs, acc => acc.reverse :: splitLinesGo cs []
  | c :: cs, acc => splitLinesGo cs (c :: acc)

/-- Python `s.splitlines()`. -/
def splitLines (s : Str) : List Str := splitLinesGo s []

/-- Split on `'\n'` only: the line structure seen by regex `.`, which in
Python matches every character except `'\n'`. -/
def splitNLGo : Str → Str → List Str
  | [], acc => if acc = [] then [] else [acc.reverse]
  | '\n' :: cs, acc => acc.reverse :: splitNLGo cs []
  | c :: cs, acc => splitNLGo cs (c :: acc)

/-- Split on `'\n'` only. -/
def splitNL (s : Str) : List Str := splitNLGo s []

/-- Join a list of strings with a single-space separator (Python `" ".join`). -/
def joinSpace : List Str → Str
  | [] => []
  | [x] => x
  | x :: y :: ys => x ++ ' ' :: joinSpace (y :: ys)

/-- Join a list of strings with `'\n'` (Python `"\n".join`). -/
def joinNL : List Str → Str
  | [] => []
  | [x] => x
  | x :: y :: ys => x ++ '\n' :: joinNL (y :: ys)

/-- Numeric value of an ASCII digit character. -/
def digitVal (c : Char) : Nat := c.toNat - 48

/-- Python `int(...)` on a string of ASCII digits. -/
def natOfDigits (s : Str) : Nat := s.foldl (fun a c => 10 * a + digitVal c) 0

/-- Decimal digit character of `d % 10` (used by decimal rendering). -/
def dchar (d : Nat) : Char :=
  match d % 10 with
  | 0 => '0' | 1 => '1' | 2 => '2' | 3 => '3' | 4 => '4'
  | 5 => '5' | 6 => '6' | 7 => '7' | 8 => '8' | _ => '9'

/-- Decimal rendering with explicit fuel (the fuel bounds the digit count,
so any fuel at least the number itself is sufficient). -/
def natReprGo : Nat → Nat → Str
  | 0, n => [dchar n]
  | fuel + 1, n =>
    if n < 10 then [dchar n] else natReprGo fuel (n / 10) ++ [dchar (n % 10)]

/-- Python `str(n)` / f-string rendering of a natural number in decimal. -/
def natRepr (n : Nat) : Str := natReprGo n n

/-- Python `min` on two rationals. -/
def minQ (a b : ℚ) : ℚ := if a ≤ b then a else b

/-- Python `max` on two naturals. -/
def maxN (a b : Nat) : Nat := if a ≤ b then b else a

/- ===== Data model (`models/schemas.py`) ===== -/

/-- `schemas.RubricItem`: one checkable rubric statement. -/
structure RubricItem where
  name : Str
  description : Str
  weight : ℚ
  category : Str
deriving DecidableEq, Repr

/-- `schemas.SkillInfo`: a parsed skill specification. -/
structure SkillInfo where
  id : Str
  path : Str
  description : Str
  rubrics : List RubricItem
deriving DecidableEq, Repr

/-- `schemas.EvalScore`: one per-rubric evaluation result. -/
structure EvalScore where
  rubric : Str
  score : ℚ
  detail : Str
deriving DecidableEq, Repr

/- ===== `services/evaluator.py` ===== -/

/-- `evaluator._extract_keywords` helper: the matches of `re.findall(r"\"([^\"]+)\"", text)`,
scanned left to right, non-overlapping; the accumulator holds the reversed
interior of a currently open quotation. -/
def findQuotedGo : Str → Option Str → List Str
  | [], _ => []
  | '"' :: cs, none => findQuotedGo cs (some [])
  | '"' :: cs, some acc =>
    if acc = [] then findQuotedGo cs (some [])
    else acc.reverse :: findQuotedGo cs none
  | _ :: cs, none => findQuotedGo cs none
  | c :: cs, some acc => findQuotedGo cs (some (c :: acc))

/-- All non-empty double-quoted substrings, in order, non-overlapping. -/
def findQuoted (s : Str) : List Str := findQuotedGo s none

/-- The stopword set of `evaluator._extract_keywords`. -/
def stopwords : List Str := [S ("should"), S ("include"), S ("ensure"), S ("provide")]

/-- `evaluator._extract_keywords`: quoted substrings if any exist, otherwise
words longer than 5 characters that are not stopwords, punctuation stripped
from the edges of each emitted word, capped at the first 5. -/
def extractKeywords (text : Str) : List Str :=
  let quoted := findQuoted text
  if quoted ≠ [] then quoted
  else
    (((splitWS text).filter
        (fun w => 5 < w.length && !(stopwords.contains (lowerS w)))).map
      (stripEdges isPunct)).take 5

/-- Left brace character (ASCII 123). -/
def lbrace : Char := '\x7b'

/-- Right brace character (ASCII 125). -/
def rbrace : Char := '\x7d'

/-- `evaluator._is_valid_json_like`: the stripped text is `{...}` or `[...]`. -/
def isValidJsonLike (text : Str) : Bool :=
  let t := stripWS text
  (t.head? = some lbrace && t.getLast? = some rbrace) ||
    (t.head? = some '[' && t.getLast? = some ']')

/-- One step of the regex `^#{1,6}\s` at a position known to be a line start:
a run of 1 to 6 `#` characters followed by a whitespace character. -/
def headerHere (l : Str) : Bool :=
  let hs := l.takeWhile (· = '#')
  let rest := l.dropWhile (· = '#')
  decide (1 ≤ hs.length) && decide (hs.length ≤ 6) &&
    (match rest.head? with | some c => isSpace c | none => false)

/-- `re.search(r"^#{1,6}\s", text, re.MULTILINE)`: the flag records whether
the current position is a line start (string start or just after `'\n'`). -/
def mdHeaderGo : Str → Bool → Bool
  | [], _ => false
  | c :: cs, atStart =>
    (atStart && headerHere (c :: cs)) || mdHeaderGo cs (c = '\n')

/-- Drop characters up to and including the first `"**"` occurrence. -/
def afterStarStar : Str → Option Str
  | [] => none
  | '*' :: '*' :: cs => some cs
  | _ :: cs => afterStarStar cs

/-- `re.search(r"\*\*.*\*\*", line)` on a single newline-free line: two
non-overlapping `"**"` occurrences. -/
def boldLine (l : Str) : Bool :=
  match afterStarStar l with
  | some rest => (afterStarStar rest).isSome
  | none => false

/-- `re.search(r"\*.*\*", line)` on a single newline-free line: at least two
`'*'` characters. -/
def italicLine (l : Str) : Bool := decide (2 ≤ l.countP (· = '*'))

/-- `re.search(r"^\s*[-*]\s", text, re.MULTILINE)`: the flag records whether
the current position is reachable as the end of `^[\s]*`; it is refreshed by
every `'\n'` and extended by whitespace. -/
def bulletGo : Str → Bool → Bool
  | [], _ => false
  | c :: cs, anch =>
    (anch && (c = '-' || c = '*') &&
      (match cs.head? with | some d => isSpace d | none => false)) ||
    bulletGo cs (if c = '\n' then true else anch && isSpace c)

/-- The multiline bullet search shared by the format strategy and the
markdown pattern list. -/
def bulletSearch (text : Str) : Bool := bulletGo text true

/-- `evaluator._has_markdown_formatting`: any of the five patterns matches. -/
def hasMarkdownFormatting (text : Str) : Bool :=
  mdHeaderGo text true ||
  (splitNL text).any boldLine ||
  (splitNL text).any italicLine ||
  isSub (S ("```")) text ||
  bulletSearch text

/-- `re.search(r"(\d+)\s+words", s)`: leftmost match, scanning one character
at a time; at a digit, the maximal digit run must be followed by at least one
whitespace character and then the literal `"words"`. -/
def findNumWords : Str → Option Nat
  | [] => none
  | c :: cs =>
    if isDigit c then
      let ds := (c :: cs).takeWhile isDigit
      let rest := (c :: cs).dropWhile isDigit
      let ws := rest.takeWhile isSpace
      let rest2 := rest.dropWhile isSpace
      if ws ≠ [] && isPrefixB (S ("words")) rest2 then some (natOfDigits ds)
      else findNumWords cs
    else findNumWords cs

/-- Count of keywords appearing case-insensitively in the lowered output. -/
def keywordMatches (kws : List Str) (outputLower : Str) : Nat :=
  (kws.filter (fun kw => isSub (lowerS kw) outputLower)).length

/-- The fallback branch of `evaluator._score_rubric` (strategies 4 and 5):
keyword presence if any keywords exist, otherwise the 0.7 default. -/
def fallbackScore (description outputLower : Str) : ℚ :=
  let kws := extractKeywords description
  if kws ≠ [] then
    minQ 1 ((keywordMatches kws outputLower : ℚ) / (kws.length : ℚ))
  else 7 / 10

/-- `evaluator._score_rubric`: ordered strategy chain — inclusion check,
format check, minimum word-count check, keyword fallback, 0.7 default. -/
def scoreRubric (output : Str) (rubric : RubricItem) : ℚ :=
  let descLower := lowerS rubric.description
  let outputLower := lowerS output
  if isSub (S ("must include")) descLower || isSub (S ("should include")) descLower then
    let kws := extractKeywords rubric.description
    minQ 1 ((keywordMatches kws outputLower : ℚ) / ((maxN 1 kws.length : Nat) : ℚ))
  else if isSub (S ("format")) descLower then
    if isSub (S ("markdown")) descLower && hasMarkdownFormatting output then 1
    else if isSub (S ("json")) descLower && isValidJsonLike output then 1
    else if (isSub (S ("list")) descLower || isSub (S ("bullet")) descLower) &&
        bulletSearch output then 1
    else 1 / 2
  else if isSub (S ("at least")) descLower && isSub (S ("words")) descLower then
    match findNumWords descLower with
    | some minWords =>
      if (splitWS output).length ≥ minWords then 1
      else ((splitWS output).length : ℚ) / (minWords : ℚ)
    | none => fallbackScore rubric.description outputLower
  else fallbackScore rubric.description outputLower

/-- `evaluator.evaluate_output`: per-rubric scores and the weighted mean,
with a zero aggregate whenever the total weight is not positive. -/
def evaluateOutput (output : Str) (rubrics : List RubricItem) :
    List EvalScore × ℚ :=
  let scores := rubrics.map fun r =>
    { rubric := r.name, score := scoreRubric output r, detail := r.description }
  let weightedSum := (rubrics.map fun r => scoreRubric output r * r.weight).sum
  let totalWeight := (rubrics.map (·.weight)).sum
  (scores, if totalWeight > 0 then weightedSum / totalWeight else 0)

/- ===== `services/skill_loader.py` ===== -/

/-- `skill_loader._extract_description` loop: `pastTitle` is the flag set by
the first `"# "` line; `acc` holds the stripped description lines collected
so far. -/
def extractDescGo : List Str → Bool → List Str → List Str
  | [], _, acc => acc
  | l :: ls, false, acc =>
    if isPrefixB (S ("# ")) l then extractDescGo ls true acc
    else extractDescGo ls false acc
  | l :: ls, true, acc =>
    if stripWS l = [] then
      if acc ≠ [] then acc else extractDescGo ls true acc
    else if isPrefixB (S ("#")) l then acc
    else extractDescGo ls true (acc ++ [stripWS l])

/-- `skill_loader._extract_description`: first paragraph after the title. -/
def extractDescription (content : Str) : Str :=
  joinSpace (extractDescGo (splitLines (stripWS content)) false [])

/-- `re.match(r"^#{1,3}\s+(.+)$", line)` succeeds: a run of 1 to 3 `#`
characters, then a whitespace character, then at least one further
character. -/
def isHeadingLine (line : Str) : Bool :=
  let hs := line.takeWhile (· = '#')
  let rest := line.dropWhile (· = '#')
  decide (1 ≤ hs.length) && decide (hs.length ≤ 3) &&
    (match rest with
     | c :: _ :: _ => isSpace c
     | _ => false)

/-- The heading text of a heading line: `match.group(1).strip()`, which equals
the remainder after the `#` run, stripped. -/
def headingText (line : Str) : Str := stripWS (line.dropWhile (· = '#'))

/-- Python dict assignment `sections[k] = v` on an insertion-ordered
association list: overwrite in place if the key exists, else append. -/
def updateAssoc (m : List (Str × Str)) (k v : Str) : List (Str × Str) :=
  if k ∈ m.map Prod.fst then
    m.map (fun p => if p.1 = k then (k, v) else p)
  else m ++ [(k, v)]

/-- `skill_loader._split_sections` loop over lines, carrying the current
heading, the current body lines and the insertion-ordered section dict. -/
def splitSecGo : List Str → Option Str → List Str → List (Str × Str) → List (Str × Str)
  | [], none, _, m => m
  | [], some h, cur, m => updateAssoc m h (joinNL cur)
  | l :: ls, none, cur, m =>
    if isHeadingLine l then splitSecGo ls (some (headingText l)) [] m
    else splitSecGo ls none (cur ++ [l]) m
  | l :: ls, some h, cur, m =>
    if isHeadingLine l then splitSecGo ls (some (headingText l)) [] (updateAssoc m h (joinNL cur))
    else splitSecGo ls (some h) (cur ++ [l]) m

/-- `skill_loader._split_sections` on a line list. -/
def splitSectionsL (ls : List Str) : List (Str × Str) := splitSecGo ls none [] []

/-- `skill_loader._split_sections`: markdown split into `{heading: body}`. -/
def splitSections (content : Str) : List (Str × Str) :=
  splitSectionsL (splitLines content)

/-- All `(heading, body)` pairs in document order, one per heading line,
without the dict overwrite: the reference sequence that the insertion-ordered
dict condenses with last-write-wins. -/
def sectionsNaiveGo : List Str → Option Str → List Str → List (Str × Str)
  | [], none, _ => []
  | [], some h, cur => [(h, joinNL cur)]
  | l :: ls, none, cur =>
    if isHeadingLine l then sectionsNaiveGo ls (some (headingText l)) []
    else sectionsNaiveGo ls none (cur ++ [l])
  | l :: ls, some h, cur =>
    if isHeadingLine l then (h, joinNL cur) :: sectionsNaiveGo ls (some (headingText l)) []
    else sectionsNaiveGo ls (some h) (cur ++ [l])

/-- All `(heading, body)` pairs of a document in order, duplicates kept. -/
def sectionsNaive (content : Str) : List (Str × Str) :=
  sectionsNaiveGo (splitLines content) none []

/-- `re.match(r"^\s*[-*]\s+(.+)$", line)` succeeds: optional leading
whitespace, a `-` or `*` marker, a whitespace character, then at least one
further character. -/
def isListItemLine (line : Str) : Bool :=
  match line.dropWhile isSpace with
  | m :: c :: _ :: _ => (m = '-' || m = '*') && isSpace c
  | _ => false

/-- The item text of a list-item line: the remainder after the marker,
stripped. -/
def listItemText (line : Str) : Str :=
  match line.dropWhile isSpace with
  | _ :: rest => stripWS rest
  | [] => []

/-- `skill_loader._extract_list_items`: the `- `/`* ` items of a body. -/
def extractListItems (body : Str) : List Str :=
  ((splitLines body).filter isListItemLine).map listItemText

/-- Section classification of `skill_loader.extract_rubrics`: `"constraint"`
in the lowered heading gives `behavioral`; otherwise `"output"` and
`"format"` give `structural`; otherwise the section is skipped. -/
def classifySection (sectionName : Str) : Option Str :=
  let lower := lowerS sectionName
  if isSub (S ("constraint")) lower then some (S ("behavioral"))
  else if isSub (S ("output")) lower && isSub (S ("format")) lower then
    some (S ("structural"))
  else none

/-- The rubric name `f"{section_name}_{i}"`. -/
def rubricName (sectionName : Str) (i : Nat) : Str :=
  sectionName ++ '_' :: natRepr i

/-- The rubric items contributed by one `(heading, body)` section. -/
def sectionRubrics (p : Str × Str) : List RubricItem :=
  match classifySection p.1 with
  | none => []
  | some cat =>
    (extractListItems p.2).enum.map fun q =>
      { name := rubricName p.1 q.1, description := q.2, weight := 1, category := cat }

/-- `skill_loader.extract_rubrics`: rubric items from classified sections. -/
def extractRubrics (content : Str) : List RubricItem :=
  (splitSections content).flatMap sectionRubrics

/- ===== `services/data_generator.py` ===== -/

/-- Python `action.capitalize()`: first character upper-cased, the rest
lower-cased. -/
def capitalize : Str → Str
  | [] => []
  | c :: cs => asciiUpper c :: cs.map asciiLower

/-- The fixed action-word list of `data_generator._extract_triggers`. -/
def actionWords : List Str :=
  [S ("create"), S ("generate"), S ("build"), S ("implement"),
   S ("design"), S ("develop")]

/-- `data_generator._extract_triggers`: three id-based triggers plus one per
action word occurring in the lowered description. -/
def extractTriggers (skill : SkillInfo) : List Str :=
  let base :=
    [S ("Use the ") ++ skill.id ++ S (" skill"),
     S ("Apply ") ++ skill.id,
     S ("Execute ") ++ skill.id]
  if skill.description ≠ [] then
    base ++ (actionWords.filter (fun a => isSub a (lowerS skill.description))).map
      (fun a => capitalize a ++ S (" using ") ++ skill.id)
  else base

/-- `data_generator._extract_constraints`: every rubric description whose
category is behavioral or structural, with a single default when empty. -/
def extractConstraints (skill : SkillInfo) : List Str :=
  let cs := skill.rubrics.filterMap fun r =>
    if r.category = S ("behavioral") then some r.description
    else if r.category = S ("structural") then some r.description
    else none
  if cs ≠ [] then cs else [S ("Provide a detailed response")]

/-- `data_generator._generate_prompt`: trigger by `index mod len(triggers)`,
one of four phrasings by `index mod 4`, then a task clause. -/
def generatePrompt (skill : SkillInfo) (triggers : List Str) (index : Nat) : Str :=
  let trigger := triggers.getD (index % triggers.length) []
  let variations :=
    [trigger ++ S (" to solve this problem."),
     S ("Please ") ++ lowerS trigger ++ S (" for the following task."),
     S ("I need help with ") ++ skill.id ++ S (". ") ++ trigger ++ S ("."),
     trigger ++ S (" with the following requirements.")]
  let basePrompt := variations.getD (index % 4) []
  let taskDetail :=
    if skill.description ≠ [] then S (" Task: ") ++ skill.description.take 100
    else S (" Task: Complete the ") ++ skill.id ++ S (" operation.")
  basePrompt ++ taskDetail

/-- The response block appended for the 0-based constraint `i` by
`data_generator._generate_response`: formats with a recognised sub-type give
example blocks, a bare `"format"` constraint appends nothing, `"include"`
without `"format"` gives a labeled section, anything else a generic numbered
section quoting the first 50 characters. -/
def constraintBlock (i : Nat) (constraint : Str) : Str :=
  let cl := lowerS constraint
  if isSub (S ("format")) cl then
    if isSub (S ("markdown")) cl then
      S ("## Formatted Output\n") ++ S ("- Item 1\n- Item 2\n- Item 3\n")
    else if isSub (S ("json")) cl then
      S ("```json\n\x7b\"result\": \"example\"\x7d\n```\n")
    else if isSub (S ("list")) cl then
      S ("- Point A\n- Point B\n- Point C\n")
    else []
  else if isSub (S ("include")) cl then
    S ("## Section ") ++ natRepr (i + 1) ++ S ("\n") ++
      S ("This section addresses: ") ++ constraint ++ S ("\n")
  else
    S ("## Constraint ") ++ natRepr (i + 1) ++ S ("\n") ++
      S ("Addressing: ") ++ constraint.take 50 ++ S ("...\n")

/-- The `_generate_response` loop over the enumerated constraints. -/
def responseBlocksGo : Nat → List Str → Str
  | _, [] => []
  | i, c :: cs => constraintBlock i c ++ responseBlocksGo (i + 1) cs

/-- `data_generator._generate_response`: header, one block per constraint,
then the summary naming the id and the constraint count. (The `index`
argument is accepted and ignored, as in the source.) -/
def generateResponse (skill : SkillInfo) (constraints : List Str) (_index : Nat) : Str :=
  S ("# ") ++ skill.id ++ S (" Response\n") ++
  responseBlocksGo 0 constraints ++
  S ("\n## Summary\n") ++
  S ("The ") ++ skill.id ++ S (" skill has been successfully applied ") ++
  S ("with ") ++ natRepr constraints.length ++ S (" constraint(s) satisfied.\n")

/-- The state of Python's process-wide `random` generator. Reseeding stores
the seed; the generator is never sampled by this module, so no other
operation on the state occurs. -/
abbrev RandomState := Int

/-- `random.seed(seed)` when a seed is supplied, identity otherwise. -/
def reseed (seed : Option Int) (st : RandomState) : RandomState :=
  match seed with
  | some s => s
  | none => st

/-- `data_generator.generate_training_data`: reseeds the process-wide
generator when a seed is given, then builds `num_samples` (prompt, response)
pairs; the final component is the generator state after the call. -/
def generateTrainingData (skill : SkillInfo) (numSamples : Nat)
    (seed : Option Int) (st : RandomState) : List (Str × Str) × RandomState :=
  let st1 := reseed seed st
  let triggers := extractTriggers skill
  let constraints := extractConstraints skill
  ((List.range numSamples).map fun i =>
    (generatePrompt skill triggers i, generateResponse skill constraints i), st1)

/- ===== Claim-side definitions =====
These definitions follow the wording of the specification claims (to be
compared against the source embeddings above); each is named after the
claim that uses it. -/

/-- The regex `(\d+)\s+words` matches at the current position: a digit-led
maximal digit run, at least one whitespace character, then `"words"`. -/
def numWordsCondAt (s : Str) : Bool :=
  match s with
  | [] => false
  | c :: _ =>
    isDigit c &&
      (let rest := s.dropWhile isDigit
       rest.takeWhile isSpace ≠ [] &&
         isPrefixB (S ("words")) (rest.dropWhile isSpace))

/-- The numeric value of the digit run at the current position. -/
def numWordsValAt (s : Str) : Nat := natOfDigits (s.takeWhile isDigit)

/-- All values of `(\d+)\s+words` matches over all start positions, in
position order; the head is the leftmost (regex `re.search`) match. -/
def numWordsMatches (s : Str) : List Nat :=
  (List.range s.length).filterMap fun i =>
    if numWordsCondAt (s.drop i) then some (numWordsValAt (s.drop i)) else none

/-- The leftmost `(\d+)\s+words` match value. -/
def firstNumWords (s : Str) : Option Nat := (numWordsMatches s).head?

/-- A full-run match position: the digit run is not the tail of a longer
digit run. -/
def fullNumWordsCondAt (s : Str) (i : Nat) : Bool :=
  numWordsCondAt (s.drop i) && (i = 0 || !isDigit (s.getD (i - 1) ' '))

/-- The values of every integer immediately preceding `"words"` in `s`. -/
def allNumWords (s : Str) : List Nat :=
  (List.range s.length).filterMap fun i =>
    if fullNumWordsCondAt s i then some (numWordsValAt (s.drop i)) else none

/-- Minimum of a list of naturals, `none` when empty. -/
def minNat? (l : List Nat) : Option Nat :=
  l.foldr (fun n acc =>
    match acc with
    | none => some n
    | some m => some (if n ≤ m then n else m)) none

/-- The smallest integer immediately preceding `"words"` (claim C2's reading). -/
def smallestNumWords (s : Str) : Option Nat := minNat? (allNumWords s)

/-- The minimum-length strategy parameterised by the number parser: score 1
when the word count reaches the parsed bound, the fraction otherwise, and the
keyword fallback when no number parses. -/
def lengthScoreWith (parse : Str → Option Nat) (output : Str) (rubric : RubricItem) : ℚ :=
  match parse (lowerS rubric.description) with
  | some minWords =>
    if (splitWS output).length ≥ minWords then 1
    else ((splitWS output).length : ℚ) / (minWords : ℚ)
  | none => fallbackScore rubric.description (lowerS output)

/-- Claim C3's keyword extraction as stated: the stopword comparison is made
on the word with punctuation already stripped from its edges. -/
def extractKeywordsClaimC3 (text : Str) : List Str :=
  let quoted := findQuoted text
  if quoted ≠ [] then quoted
  else
    ((splitWS text).filterMap fun w =>
      if 5 < w.length && !(stopwords.contains (lowerS (stripEdges isPunct w))) then
        some (stripEdges isPunct w)
      else none).take 5

/-- Claim C3 amended: length and stopword tests on the raw word, punctuation
stripped only from the emitted keyword. -/
def extractKeywordsAmended (text : Str) : List Str :=
  let quoted := findQuoted text
  if quoted ≠ [] then quoted
  else
    ((splitWS text).filterMap fun w =>
      if 5 < w.length && !(stopwords.contains (lowerS w)) then
        some (stripEdges isPunct w)
      else none).take 5

/-- Concatenation of a list of strings (Python `"".join`). -/
def joinAll (l : List Str) : Str := l.foldr (· ++ ·) []

/-- Claim C4's response-block rule table as stated: any constraint matching
none of the four listed patterns gets the generic numbered section — in
particular a bare `"format"` constraint without a recognised sub-type. -/
def blockRuleClaimC4 (i : Nat) (constraint : Str) : Str :=
  let cl := lowerS constraint
  if isSub (S ("format")) cl && isSub (S ("markdown")) cl then
    S ("## Formatted Output\n") ++ S ("- Item 1\n- Item 2\n- Item 3\n")
  else if isSub (S ("format")) cl && isSub (S ("json")) cl then
    S ("```json\n\x7b\"result\": \"example\"\x7d\n```\n")
  else if isSub (S ("format")) cl && isSub (S ("list")) cl then
    S ("- Point A\n- Point B\n- Point C\n")
  else if isSub (S ("include")) cl && !isSub (S ("format")) cl then
    S ("## Section ") ++ natRepr (i + 1) ++ S ("\n") ++
      S ("This section addresses: ") ++ constraint ++ S ("\n")
  else
    S ("## Constraint ") ++ natRepr (i + 1) ++ S ("\n") ++
      S ("Addressing: ") ++ constraint.take 50 ++ S ("...\n")

/-- Claim C4's response as stated: header, one rule-table block per
enumerated constraint, summary. -/
def generateResponseClaimC4 (skill : SkillInfo) (constraints : List Str) (_index : Nat) : Str :=
  S ("# ") ++ skill.id ++ S (" Response\n") ++
  joinAll (constraints.enum.map fun q => blockRuleClaimC4 q.1 q.2) ++
  S ("\n## Summary\n") ++
  S ("The ") ++ skill.id ++ S (" skill has been successfully applied ") ++
  S ("with ") ++ natRepr constraints.length ++ S (" constraint(s) satisfied.\n")

/-- Claim C4 amended rule table: as claimed, except that a `"format"`
constraint without a markdown/json/list sub-type appends no block at all. -/
def blockRuleAmended (i : Nat) (constraint : Str) : Str :=
  let cl := lowerS constraint
  if isSub (S ("format")) cl && isSub (S ("markdown")) cl then
    S ("## Formatted Output\n") ++ S ("- Item 1\n- Item 2\n- Item 3\n")
  else if isSub (S ("format")) cl && isSub (S ("json")) cl then
    S ("```json\n\x7b\"result\": \"example\"\x7d\n```\n")
  else if isSub (S ("format")) cl && isSub (S ("list")) cl then
    S ("- Point A\n- Point B\n- Point C\n")
  else if isSub (S ("format")) cl then []
  else if isSub (S ("include")) cl then
    S ("## Section ") ++ natRepr (i + 1) ++ S ("\n") ++
      S ("This section addresses: ") ++ constraint ++ S ("\n")
  else
    S ("## Constraint ") ++ natRepr (i + 1) ++ S ("\n") ++
      S ("Addressing: ") ++ constraint.take 50 ++ S ("...\n")

/-- Claim C4 amended response: header, amended rule-table blocks, summary. -/
def generateResponseAmended (skill : SkillInfo) (constraints : List Str) (_index : Nat) : Str :=
  S ("# ") ++ skill.id ++ S (" Response\n") ++
  joinAll (constraints.enum.map fun q => blockRuleAmended q.1 q.2) ++
  S ("\n## Summary\n") ++
  S ("The ") ++ skill.id ++ S (" skill has been successfully applied ") ++
  S ("with ") ++ natRepr constraints.length ++ S (" constraint(s) satisfied.\n")

/-- Claim C5's title line as stated: exactly one `'#'` followed by any
whitespace character. -/
def isTitleClaimC5 (line : Str) : Bool :=
  match line with
  | '#' :: c :: _ => isSpace c
  | _ => false

/-- Claim C5's stopping heading as stated: one to three `'#'` characters
followed by a whitespace character. -/
def isHeadingClaimC5 (line : Str) : Bool :=
  let hs := line.takeWhile (· = '#')
  let rest := line.dropWhile (· = '#')
  decide (1 ≤ hs.length) && decide (hs.length ≤ 3) &&
    (match rest.head? with | some c => isSpace c | none => false)

/-- Claim C5's description extraction as stated: skip to the first
one-`'#'`-plus-whitespace line, consume it, skip blank lines, then collect
trimmed lines until a blank line or a 1–3-`'#'` heading line. -/
def extractDescriptionClaimC5 (content : Str) : Str :=
  match (splitLines content).dropWhile (fun l => !isTitleClaimC5 l) with
  | [] => []
  | _ :: rest =>
    joinSpace
      (((rest.dropWhile (fun l => stripWS l = [])).takeWhile
          (fun l => stripWS l ≠ [] && !isHeadingClaimC5 l)).map stripWS)

/-- Claim C5 amended: the title line starts with `"# "` (hash then a space),
and collection stops at any line starting with `'#'`. -/
def extractDescriptionAmended (content : Str) : Str :=
  match (splitLines (stripWS content)).dropWhile (fun l => !isPrefixB (S ("# ")) l) with
  | [] => []
  | _ :: rest =>
    joinSpace
      (((rest.dropWhile (fun l => stripWS l = [])).takeWhile
          (fun l => stripWS l ≠ [] && !isPrefixB (S ("#")) l)).map stripWS)

/-- First value bound to key `k` in an association list. -/
def findVal (k : Str) : List (Str × Str) → Option Str
  | [] => none
  | p :: ps => if p.1 = k then some p.2 else findVal k ps

/-- Fold a pair sequence into an insertion-ordered dict by repeated
assignment. -/
def applyUpdates (m : List (Str × Str)) (ps : List (Str × Str)) : List (Str × Str) :=
  ps.foldl (fun acc p => updateAssoc acc p.1 p.2) m

/-- First-some choice on options. -/
def orO (a b : Option Str) : Option Str :=
  match a with
  | some v => some v
  | none => b

/-- A concrete markdown-format rubric of weight 2, used as a witness
input. -/
def mdRubric : RubricItem :=
  { name := S ("f"), description := S ("Output must be in markdown format"),
    weight := 2, category := S ("structural") }

/- ===== Helper lemmas ===== -/

theorem filter_map_eq_filterMap {α β : Type} (p : α → Bool) (f : α → β) :
    ∀ l : List α, (l.filter p).map f = l.filterMap (fun a => if p a then some (f a) else none)
  | [] => rfl
  | a :: l => by
    rw [List.filter_cons, List.filterMap_cons]
    cases h : p a <;> simp [h, filter_map_eq_filterMap p f l]

/- ===== C1 ===== -/

/-- C1 (corrected): when the total rubric weight is 0 the aggregate is 0.0
and no division is performed, but the score sequence has one entry per
rubric item — it is empty only when the rubric sequence itself is empty. -/
theorem C1_zero_weight_aggregate (output : Str) (rubrics : List RubricItem)
    (h : (rubrics.map (·.weight)).sum = 0) :
    (evaluateOutput output rubrics).2 = 0 ∧
      (evaluateOutput output rubrics).1.length = rubrics.length := by
  constructor
  · simp only [evaluateOutput, h]
    norm_num
  · simp [evaluateOutput]

/-- C1 counterexample: a single rubric of weight 0 has total weight 0, yet
`evaluate_output` returns a non-empty score sequence. -/
theorem C1_counterexample :
    (([{ name := S ("r"), description := S ("be concise"), weight := 0,
          category := S ("behavioral") }] : List RubricItem).map (·.weight)).sum = 0 ∧
      (evaluateOutput (S ("some output"))
          [{ name := S ("r"), description := S ("be concise"), weight := 0,
             category := S ("behavioral") }]).1 ≠ [] := by
  constructor
  · norm_num
  · simp [evaluateOutput]

/-- C1 witness: the amended statement at a concrete zero-weight rubric. -/
theorem C1_witness :
    (evaluateOutput (S ("some output"))
        [{ name := S ("r"), description := S ("be concise"), weight := 0,
           category := S ("behavioral") }]).2 = 0 ∧
      (evaluateOutput (S ("some output"))
          [{ name := S ("r"), description := S ("be concise"), weight := 0,
             category := S ("behavioral") }]).1.length =
        ([{ name := S ("r"), description := S ("be concise"), weight := 0,
            category := S ("behavioral") }] : List RubricItem).length :=
  C1_zero_weight_aggregate (S ("some output")) _ (by norm_num)

/- ===== C3 ===== -/

/-- C3 (corrected): the keyword set is the double-quoted substrings when any
exist; otherwise the words longer than 5 characters whose raw lower-cased
form is not a stopword, each emitted with punctuation stripped from its
edges, capped at the first 5. -/
theorem C3_keyword_extraction (text : Str) :
    extractKeywords text = extractKeywordsAmended text := by
  simp only [extractKeywords, extractKeywordsAmended]
  by_cases h : findQuoted text ≠ [] <;>
    simp [h, filter_map_eq_filterMap]

/-- C3 counterexample: in `"answer should. list tables"` the word
`"should."` is longer than 5 characters and is not literally a stopword, so
the source keeps it (stripped to `"should"`), while the claim's
strip-before-comparison reading drops it. -/
theorem C3_counterexample :
    extractKeywords (S ("answer should. list tables")) =
        [S ("answer"), S ("should"), S ("tables")] ∧
      extractKeywordsClaimC3 (S ("answer should. list tables")) =
        [S ("answer"), S ("tables")] := by
  constructor
  · decide
  · decide

/- ===== C8 and C10 ===== -/

/-- C8 (confirmed): with the same seed and identical arguments, two calls to
`generate_training_data` — whatever the prior state of the process-wide
generator — return identical (prompt, response) sequences, because the
generator is reseeded and never sampled. -/
theorem C8_seed_reproducibility (skill : SkillInfo) (numSamples : Nat) (s : Int)
    (st1 st2 : RandomState) :
    (generateTrainingData skill numSamples (some s) st1).1 =
      (generateTrainingData skill numSamples (some s) st2).1 := rfl

/-- C10 (confirmed): the generated sequence does not depend on the seed at
all — any two seed arguments (present or absent) and any two prior generator
states give identical output, since the reseeded generator is never
sampled. -/
theorem C10_seed_independence (skill : SkillInfo) (numSamples : Nat)
    (seed1 seed2 : Option Int) (st1 st2 : RandomState) :
    (generateTrainingData skill numSamples seed1 st1).1 =
      (generateTrainingData skill numSamples seed2 st2).1 := rfl

/- ===== C4 ===== -/

theorem constraintBlock_eq_blockRuleAmended (i : Nat) (c : Str) :
    constraintBlock i c = blockRuleAmended i c := by
  simp only [constraintBlock, blockRuleAmended]
  cases hf : isSub (S ("format")) (lowerS c) <;>
    cases hm : isSub (S ("markdown")) (lowerS c) <;>
      cases hj : isSub (S ("json")) (lowerS c) <;>
        cases hl : isSub (S ("list")) (lowerS c) <;>
          simp [hf, hm, hj, hl]

theorem responseBlocksGo_eq : ∀ (cs : List Str) (n : Nat),
    responseBlocksGo n cs =
      joinAll ((List.enumFrom n cs).map fun q => blockRuleAmended q.1 q.2)
  | [], _ => rfl
  | c :: cs, n => by
    simp only [responseBlocksGo, List.enumFrom, List.map_cons, joinAll, List.foldr_cons]
    rw [constraintBlock_eq_blockRuleAmended, responseBlocksGo_eq cs (n + 1)]
    rfl

/-- C4 (corrected): the generated response is the header, then per
enumerated constraint the rule-table block — markdown/json/list format
examples, a labeled section for `"include"`, a generic numbered section
otherwise — and the summary naming the id and the constraint count, EXCEPT
that a constraint containing `"format"` with no recognised sub-type appends
no block at all (the claim as stated assigns it the generic section). -/
theorem C4_response_structure (skill : SkillInfo) (constraints : List Str) (index : Nat) :
    generateResponse skill constraints index =
      generateResponseAmended skill constraints index := by
  simp only [generateResponse, generateResponseAmended, List.enum]
  rw [responseBlocksGo_eq]

/-- C4 counterexample: for the constraint `"Use a clear format please"`
(contains `"format"` but neither markdown nor json nor list) the source
appends no block, while the claim as stated predicts a generic numbered
section. -/
theorem C4_counterexample :
    generateResponse
        { id := S ("sk"), path := S ("p"), description := S (""), rubrics := [] }
        [S ("Use a clear format please")] 0 ≠
      generateResponseClaimC4
        { id := S ("sk"), path := S ("p"), description := S (""), rubrics := [] }
        [S ("Use a clear format please")] 0 := by
  decide

/- ===== C5 ===== -/

theorem extractDescGo_start (ls : List Str) :
    ∀ acc : List Str,
      extractDescGo ls false acc =
        match ls.dropWhile (fun l => !isPrefixB (S ("# ")) l) with
        | [] => acc
        | _ :: rest => extractDescGo rest true acc := by
  induction ls with
  | nil => intro acc; rfl
  | cons l ls ih =>
    intro acc
    simp only [extractDescGo, List.dropWhile_cons]
    cases h : isPrefixB (S ("# ")) l <;> simp [h, ih]

theorem extractDescGo_collect (ls : List Str) :
    ∀ acc : List Str, acc ≠ [] →
      extractDescGo ls true acc =
        acc ++ (ls.takeWhile
          (fun l => stripWS l ≠ [] && !isPrefixB (S ("#")) l)).map stripWS := by
  induction ls with
  | nil => intro acc _; simp [extractDescGo]
  | cons l ls ih =>
    intro acc hacc
    simp only [extractDescGo, List.takeWhile_cons]
    by_cases hb : stripWS l = []
    · simp [hb, hacc]
    · by_cases hh : isPrefixB (S ("#")) l = true
      · simp [hb, hh, hacc]
      · have hne : acc ++ [stripWS l] ≠ [] := by simp
        simp [hb, hh, ih (acc ++ [stripWS l]) hne]

theorem extractDescGo_skip_blanks (ls : List Str) :
    extractDescGo ls true [] =
      ((ls.dropWhile (fun l => decide (stripWS l = []))).takeWhile
        (fun l => stripWS l ≠ [] && !isPrefixB (S ("#")) l)).map stripWS := by
  induction ls with
  | nil => rfl
  | cons l ls ih =>
    simp only [extractDescGo, List.dropWhile_cons]
    by_cases hb : stripWS l = []
    · simpa [hb] using ih
    · by_cases hh : isPrefixB (S ("#")) l = true
      · simp [hb, hh, List.takeWhile_cons]
      · have := extractDescGo_collect ls [stripWS l] (by simp)
        simp [hb, hh, List.takeWhile_cons, this]

/-- C5 (corrected): the description is extracted by skipping lines until the
first line starting with the two characters `"# "` (hash, space — not hash
plus arbitrary whitespace), consuming it, skipping blank lines, then
collecting trimmed non-blank lines joined by single spaces until a blank
line or ANY line starting with `'#'` (not only 1–3 `'#'` plus whitespace);
the whole document is whitespace-stripped first; no title gives the empty
string. -/
theorem C5_description_extraction (content : Str) :
    extractDescription content = extractDescriptionAmended content := by
  simp only [extractDescription, extractDescriptionAmended]
  rw [extractDescGo_start]
  cases h : (splitLines (stripWS content)).dropWhile (fun l => !isPrefixB (S ("# ")) l) with
  | nil => rfl
  | cons l rest => exact congrArg joinSpace (extractDescGo_skip_blanks rest)

/-- C5 counterexample: in `"# T\nabc\n#note x"` the line `"#note x"` starts
with `'#'` but is not a 1–3-hash-plus-whitespace heading, so the source
stops collecting there while the claim as stated keeps collecting it. -/
theorem C5_counterexample :
    extractDescription (S ("# T\nabc\n#note x")) = S ("abc") ∧
      extractDescriptionClaimC5 (S ("# T\nabc\n#note x")) = S ("abc #note x") := by
  constructor
  · decide
  · decide

/- ===== C2 ===== -/

theorem findNumWords_cons (c : Char) (cs : Str) :
    findNumWords (c :: cs) =
      if numWordsCondAt (c :: cs) then some (numWordsValAt (c :: cs))
      else findNumWords cs := by
  simp only [findNumWords, numWordsCondAt, numWordsValAt]
  cases hd : isDigit c <;> simp [hd]

theorem numWordsMatches_cons (c : Char) (cs : Str) :
    numWordsMatches (c :: cs) =
      (if numWordsCondAt (c :: cs) then some (numWordsValAt (c :: cs)) else none).toList ++
        numWordsMatches cs := by
  simp only [numWordsMatches, List.length_cons, List.range_succ_eq_map,
    List.filterMap_cons, List.filterMap_map]
  cases hc : numWordsCondAt (c :: cs) <;>
    simp [hc, Function.comp_def, List.drop_succ_cons, List.drop_zero]

theorem findNumWords_eq_head : ∀ s : Str, findNumWords s = (numWordsMatches s).head?
  | [] => rfl
  | c :: cs => by
    rw [findNumWords_cons, numWordsMatches_cons]
    cases hc : numWordsCondAt (c :: cs) <;>
      simp [hc, findNumWords_eq_head cs]

/-- C2 (corrected): when the description contains `"at least"` and `"words"`
and triggers neither the inclusion nor the format strategy, `_score_rubric`
parses the value of the FIRST (leftmost) regex match of digits, whitespace,
`"words"` — not the smallest such integer — scoring 1.0 when the
whitespace-token count of the output reaches it, the proportion otherwise,
and falling through to the keyword fallback when no number parses. -/
theorem C2_min_length_strategy (output : Str) (rubric : RubricItem)
    (h1 : (isSub (S ("must include")) (lowerS rubric.description) ||
        isSub (S ("should include")) (lowerS rubric.description)) = false)
    (h2 : isSub (S ("format")) (lowerS rubric.description) = false)
    (h3 : (isSub (S ("at least")) (lowerS rubric.description) &&
        isSub (S ("words")) (lowerS rubric.description)) = true) :
    scoreRubric output rubric = lengthScoreWith firstNumWords output rubric := by
  have ha := (Bool.and_eq_true _ _).mp h3
  simp only [scoreRubric, lengthScoreWith, firstNumWords, h1, h2, ha.1, ha.2,
    Bool.false_eq_true, if_false, Bool.and_self, if_true, ← findNumWords_eq_head]

/-- C2 witness: the amended statement at the spec's own scenario rubric
`"Response should be at least 10 words"`. -/
theorem C2_witness :
    ((isSub (S ("must include")) (lowerS (S ("Response should be at least 10 words"))) ||
        isSub (S ("should include")) (lowerS (S ("Response should be at least 10 words")))) = false ∧
      isSub (S ("format")) (lowerS (S ("Response should be at least 10 words"))) = false ∧
      (isSub (S ("at least")) (lowerS (S ("Response should be at least 10 words"))) &&
        isSub (S ("words")) (lowerS (S ("Response should be at least 10 words")))) = true) ∧
    scoreRubric (S ("a b c d e"))
        { name := S ("len"), description := S ("Response should be at least 10 words"),
          weight := 1, category := S ("structural") } =
      lengthScoreWith firstNumWords (S ("a b c d e"))
        { name := S ("len"), description := S ("Response should be at least 10 words"),
          weight := 1, category := S ("structural") } :=
  ⟨⟨by decide, by decide, by decide⟩,
    C2_min_length_strategy (S ("a b c d e")) _ (by decide) (by decide) (by decide)⟩

/-- C2 counterexample: for `"at least 10 words and then 2 words"` the length
strategy triggers, the source parses the first number 10 and scores a
5-word output 5/10 = 0.5, while the smallest-integer reading of the claim
parses 2 and predicts score 1.0. -/
theorem C2_counterexample :
    ((isSub (S ("must include")) (lowerS (S ("at least 10 words and then 2 words"))) ||
        isSub (S ("should include")) (lowerS (S ("at least 10 words and then 2 words")))) = false ∧
      isSub (S ("format")) (lowerS (S ("at least 10 words and then 2 words"))) = false ∧
      (isSub (S ("at least")) (lowerS (S ("at least 10 words and then 2 words"))) &&
        isSub (S ("words")) (lowerS (S ("at least 10 words and then 2 words")))) = true) ∧
    scoreRubric (S ("a b c d e"))
        { name := S ("len"), description := S ("at least 10 words and then 2 words"),
          weight := 1, category := S ("structural") } = 1 / 2 ∧
    lengthScoreWith smallestNumWords (S ("a b c d e"))
        { name := S ("len"), description := S ("at least 10 words and then 2 words"),
          weight := 1, category := S ("structural") } = 1 := by
  refine ⟨⟨by decide, by decide, by decide⟩, ?_, ?_⟩
  · have h1 : (isSub (S ("must include")) (lowerS (S ("at least 10 words and then 2 words"))) ||
        isSub (S ("should include")) (lowerS (S ("at least 10 words and then 2 words")))) = false := by decide
    have h2 : isSub (S ("format")) (lowerS (S ("at least 10 words and then 2 words"))) = false := by decide
    have h3 : (isSub (S ("at least")) (lowerS (S ("at least 10 words and then 2 words"))) &&
        isSub (S ("words")) (lowerS (S ("at least 10 words and then 2 words")))) = true := by decide
    have h4 : findNumWords (lowerS (S ("at least 10 words and then 2 words"))) = some 10 := by decide
    have h5 : (splitWS (S ("a b c d e"))).length = 5 := by decide
    have ha := (Bool.and_eq_true _ _).mp h3
    simp only [scoreRubric, h1, h2, ha.1, ha.2, Bool.false_eq_true, if_false,
      Bool.and_self, if_true, h4, h5]
    norm_num
  · have h6 : smallestNumWords (lowerS (S ("at least 10 words and then 2 words"))) = some 2 := by decide
    have h5 : (splitWS (S ("a b c d e"))).length = 5 := by decide
    simp only [lengthScoreWith, h6, h5]
    norm_num

/- ===== C7 ===== -/

theorem minQ_one_nonneg (x : ℚ) (hx : 0 ≤ x) : 0 ≤ minQ 1 x := by
  unfold minQ; split
  · norm_num
  · exact hx

theorem minQ_one_le_one (x : ℚ) : minQ 1 x ≤ 1 := by
  unfold minQ; split
  · norm_num
  · linarith [lt_of_not_le (by assumption : ¬(1 : ℚ) ≤ x)]

theorem fallbackScore_bounds (d ol : Str) :
    0 ≤ fallbackScore d ol ∧ fallbackScore d ol ≤ 1 := by
  unfold fallbackScore
  dsimp only
  split_ifs with h
  · have hx : (0:ℚ) ≤ (keywordMatches (extractKeywords d) ol : ℚ) / ((extractKeywords d).length : ℚ) :=
      div_nonneg (Nat.cast_nonneg _) (Nat.cast_nonneg _)
    exact ⟨minQ_one_nonneg _ hx, minQ_one_le_one _⟩
  · norm_num

theorem scoreRubric_bounds (output : Str) (r : RubricItem) :
    0 ≤ scoreRubric output r ∧ scoreRubric output r ≤ 1 := by
  unfold scoreRubric
  dsimp only
  split_ifs with h1 h2 h3 h4 h5
  · have hx : (0:ℚ) ≤ (keywordMatches (extractKeywords r.description) (lowerS output) : ℚ) /
        ((maxN 1 (extractKeywords r.description).length : Nat) : ℚ) :=
      div_nonneg (Nat.cast_nonneg _) (Nat.cast_nonneg _)
    exact ⟨minQ_one_nonneg _ hx, minQ_one_le_one _⟩
  · norm_num
  · norm_num
  · norm_num
  · norm_num
  · cases hfn : findNumWords (lowerS r.description) with
    | none => exact fallbackScore_bounds r.description (lowerS output)
    | some n =>
      simp only
      split_ifs with hwc
      · norm_num
      · have hlt : (splitWS output).length < n := lt_of_not_le hwc
        have hn : (0:ℚ) < (n:ℚ) := by
          have : 0 < n := Nat.pos_of_ne_zero (by omega)
          exact_mod_cast this
        constructor
        · exact div_nonneg (Nat.cast_nonneg _) (le_of_lt hn)
        · rw [div_le_one hn]
          exact_mod_cast le_of_lt hlt
  · exact fallbackScore_bounds r.description (lowerS output)

theorem weightedSum_bounds (output : Str) :
    ∀ rubrics : List RubricItem, (∀ r ∈ rubrics, 0 < r.weight) →
      0 ≤ (rubrics.map fun r => scoreRubric output r * r.weight).sum ∧
        (rubrics.map fun r => scoreRubric output r * r.weight).sum ≤
          (rubrics.map (·.weight)).sum
  | [], _ => by simp
  | r :: rs, h => by
    have hr := h r (List.mem_cons_self r rs)
    have ih := weightedSum_bounds output rs (fun x hx => h x (List.mem_cons_of_mem r hx))
    have hs := scoreRubric_bounds output r
    simp only [List.map_cons, List.sum_cons]
    constructor
    · exact add_nonneg (mul_nonneg hs.1 (le_of_lt hr)) ih.1
    · exact add_le_add (mul_le_of_le_one_left (le_of_lt hr) hs.2) ih.2

/-- C7 (confirmed): every per-rubric score lies in [0, 1], and whenever all
weights are positive the weighted aggregate of `evaluate_output` lies in
[0, 1] as well. -/
theorem C7_score_bounds (output : Str) (rubric : RubricItem)
    (rubrics : List RubricItem) (h : ∀ r ∈ rubrics, 0 < r.weight) :
    (0 ≤ scoreRubric output rubric ∧ scoreRubric output rubric ≤ 1) ∧
      (0 ≤ (evaluateOutput output rubrics).2 ∧ (evaluateOutput output rubrics).2 ≤ 1) := by
  refine ⟨scoreRubric_bounds output rubric, ?_⟩
  have hb := weightedSum_bounds output rubrics h
  simp only [evaluateOutput]
  split_ifs with ht
  · exact ⟨div_nonneg hb.1 (le_of_lt ht), (div_le_one ht).mpr hb.2⟩
  · norm_num

/-- C7 witness: the bounds at a concrete output and positively weighted
rubric list. -/
theorem C7_witness :
    (∀ r ∈ [mdRubric], 0 < r.weight) ∧
      ((0 ≤ scoreRubric (S ("# t\n- a\n")) mdRubric ∧
          scoreRubric (S ("# t\n- a\n")) mdRubric ≤ 1) ∧
        (0 ≤ (evaluateOutput (S ("# t\n- a\n")) [mdRubric]).2 ∧
          (evaluateOutput (S ("# t\n- a\n")) [mdRubric]).2 ≤ 1)) :=
  ⟨by intro r hr; rw [List.mem_singleton] at hr; subst hr; norm_num [mdRubric],
    C7_score_bounds (S ("# t\n- a\n")) mdRubric [mdRubric]
      (by intro r hr; rw [List.mem_singleton] at hr; subst hr; norm_num [mdRubric])⟩

/- ===== C6 ===== -/

theorem applyUpdates_nil (m : List (Str × Str)) : applyUpdates m [] = m := rfl

theorem applyUpdates_cons (m : List (Str × Str)) (p : Str × Str) (ps : List (Str × Str)) :
    applyUpdates m (p :: ps) = applyUpdates (updateAssoc m p.1 p.2) ps := rfl

theorem splitSecGo_eq_naive :
    ∀ (ls : List Str) (oh : Option Str) (cur : List Str) (m : List (Str × Str)),
      splitSecGo ls oh cur m = applyUpdates m (sectionsNaiveGo ls oh cur)
  | [], none, _, _ => rfl
  | [], some _, _, _ => rfl
  | l :: ls, none, cur, m => by
    simp only [splitSecGo, sectionsNaiveGo]
    cases hl : isHeadingLine l <;>
      simp only [hl, Bool.false_eq_true, if_false, if_true] <;>
      exact splitSecGo_eq_naive ls _ _ m
  | l :: ls, some h, cur, m => by
    simp only [splitSecGo, sectionsNaiveGo]
    cases hl : isHeadingLine l
    · simp only [hl, Bool.false_eq_true, if_false]
      exact splitSecGo_eq_naive ls _ _ m
    · simp only [hl, if_true]
      rw [applyUpdates_cons]
      exact splitSecGo_eq_naive ls _ _ _

theorem findVal_isSome_iff (k : Str) :
    ∀ l : List (Str × Str), (findVal k l).isSome ↔ k ∈ l.map Prod.fst
  | [] => by simp [findVal]
  | p :: ps => by
    simp only [findVal, List.map_cons, List.mem_cons]
    by_cases hp : p.1 = k
    · simp [hp]
    · simp [hp, Ne.symm hp, findVal_isSome_iff k ps]

theorem findVal_map_overwrite (k : Str) (v : Str) (k' : Str) :
    ∀ m : List (Str × Str),
      findVal k' (m.map (fun p => if p.1 = k then (k, v) else p)) =
        if k' = k then (if (findVal k m).isSome then some v else none)
        else findVal k' m
  | [] => by by_cases h : k' = k <;> simp [findVal, h]
  | p :: ps => by
    by_cases hk : k' = k
    · subst hk
      by_cases hp : p.1 = k'
      · simp [findVal, hp]
      · simpa [findVal, hp] using findVal_map_overwrite k' v k' ps
    · have hk2 : ¬k = k' := fun hh => hk hh.symm
      by_cases hp : p.1 = k
      · have hp2 : ¬p.1 = k' := hp ▸ hk2
        simpa [findVal, hp, hp2, hk2, hk] using findVal_map_overwrite k v k' ps
      · by_cases hpk : p.1 = k'
        · simp [findVal, hp, hpk, hk]
        · simpa [findVal, hp, hpk, hk] using findVal_map_overwrite k v k' ps

theorem findVal_append (k : Str) :
    ∀ l₁ l₂ : List (Str × Str), findVal k (l₁ ++ l₂) = orO (findVal k l₁) (findVal k l₂)
  | [], l₂ => rfl
  | p :: ps, l₂ => by
    simp only [List.cons_append, findVal]
    by_cases hp : p.1 = k <;> simp [hp, orO, findVal_append k ps l₂]

theorem findVal_updateAssoc (m : List (Str × Str)) (k v k' : Str) :
    findVal k' (updateAssoc m k v) = if k' = k then some v else findVal k' m := by
  unfold updateAssoc
  split_ifs with hk hq hq
  · rw [findVal_map_overwrite, if_pos hq, if_pos ((findVal_isSome_iff k m).mpr hk)]
  · rw [findVal_map_overwrite, if_neg hq]
  · subst hq
    have hnone : findVal k' m = none := by
      cases hfv : findVal k' m with
      | none => rfl
      | some v' => exact absurd ((findVal_isSome_iff k' m).mp (by simp [hfv])) hk
    rw [findVal_append, hnone]
    simp [orO, findVal]
  · rw [findVal_append]
    cases hfv : findVal k' m with
    | none =>
      have hq2 : ¬k = k' := fun hh => hq hh.symm
      simp [hfv, orO, findVal, hq, hq2]
    | some v' => simp [hfv, orO]

theorem keys_updateAssoc (m : List (Str × Str)) (k v : Str) :
    (updateAssoc m k v).map Prod.fst =
      if k ∈ m.map Prod.fst then m.map Prod.fst else m.map Prod.fst ++ [k] := by
  unfold updateAssoc
  split_ifs with hk
  · simp only [List.map_map]
    apply List.map_congr_left
    intro p _
    by_cases hp : p.1 = k <;> simp [hp]
  · simp

theorem keys_nodup_updateAssoc (m : List (Str × Str)) (k v : Str)
    (h : (m.map Prod.fst).Nodup) : ((updateAssoc m k v).map Prod.fst).Nodup := by
  rw [keys_updateAssoc]
  split_ifs with hk
  · exact h
  · exact List.Nodup.append h (List.nodup_singleton k)
      (by simpa [List.disjoint_singleton] using hk)

theorem keys_nodup_applyUpdates :
    ∀ (ps : List (Str × Str)) (m : List (Str × Str)),
      (m.map Prod.fst).Nodup → ((applyUpdates m ps).map Prod.fst).Nodup
  | [], m, h => h
  | p :: ps, m, h => by
    rw [applyUpdates_cons]
    exact keys_nodup_applyUpdates ps _ (keys_nodup_updateAssoc m p.1 p.2 h)

theorem findVal_applyUpdates (k : Str) :
    ∀ (ps : List (Str × Str)) (m : List (Str × Str)),
      findVal k (applyUpdates m ps) = orO (findVal k ps.reverse) (findVal k m)
  | [], m => by simp [applyUpdates_nil, findVal, orO]
  | p :: ps, m => by
    rw [applyUpdates_cons, findVal_applyUpdates k ps _, List.reverse_cons, findVal_append]
    cases hfv : findVal k ps.reverse with
    | some v => simp [orO]
    | none =>
      simp only [orO, findVal, findVal_updateAssoc]
      by_cases h : p.1 = k
      · simp [h, findVal]
      · have h2 : ¬k = p.1 := fun hh => h hh.symm
        simp [h, h2, findVal]

theorem countP_key_eq_one (k : Str) :
    ∀ l : List (Str × Str), (l.map Prod.fst).Nodup → (findVal k l).isSome →
      l.countP (fun p => decide (p.1 = k)) = 1
  | [], _, hs => by simp [findVal] at hs
  | p :: ps, hn, hs => by
    simp only [List.map_cons, List.nodup_cons] at hn
    by_cases hp : p.1 = k
    · rw [List.countP_cons_of_pos _ _ (by simpa using hp)]
      have hz : ps.countP (fun q => decide (q.1 = k)) = 0 := by
        rw [List.countP_eq_zero]
        intro q hq
        simp only [decide_eq_true_eq]
        intro hqk
        exact hn.1 (hp ▸ hqk ▸ List.mem_map_of_mem Prod.fst hq)
      omega
    · rw [List.countP_cons_of_neg _ _ (by simpa using hp)]
      refine countP_key_eq_one k ps hn.2 ?_
      simpa [findVal, hp] using hs

theorem splitSecGo_none_cur :
    ∀ (ls : List Str) (cur cur' : List Str) (m : List (Str × Str)),
      splitSecGo ls none cur m = splitSecGo ls none cur' m
  | [], _, _, _ => rfl
  | l :: ls, cur, cur', m => by
    simp only [splitSecGo]
    cases hl : isHeadingLine l <;> simp only [hl, Bool.false_eq_true, if_false, if_true]
    · exact splitSecGo_none_cur ls _ _ m

theorem splitSectionsL_dropWhile :
    ∀ ls : List Str,
      splitSectionsL (ls.dropWhile (fun l => !isHeadingLine l)) = splitSectionsL ls
  | [] => rfl
  | l :: ls => by
    simp only [List.dropWhile_cons]
    cases hl : isHeadingLine l <;> simp only [hl, Bool.not_false, Bool.not_true,
      Bool.false_eq_true, if_false, if_true]
    · rw [splitSectionsL_dropWhile ls]
      simp only [splitSectionsL, splitSecGo, hl, Bool.false_eq_true, if_false]
      exact splitSecGo_none_cur ls [] [l] []

/-- C6 (confirmed): when two heading lines carry the same trimmed text, the
section map has exactly one entry for that text, its body is the body of the
last such heading (last-write-wins), and the lines preceding the first
heading line are discarded — dropping them from the document leaves the
section map unchanged. -/
theorem C6_last_write_wins (content : Str) (h : Str)
    (hdup : 2 ≤ (sectionsNaive content).countP (fun p => decide (p.1 = h))) :
    (splitSections content).countP (fun p => decide (p.1 = h)) = 1 ∧
      findVal h (splitSections content) = findVal h (sectionsNaive content).reverse ∧
      splitSectionsL ((splitLines content).dropWhile (fun l => !isHeadingLine l)) =
        splitSections content := by
  have heq : splitSections content = applyUpdates [] (sectionsNaive content) :=
    splitSecGo_eq_naive (splitLines content) none [] []
  have hfv : findVal h (splitSections content) = findVal h (sectionsNaive content).reverse := by
    rw [heq, findVal_applyUpdates]
    cases hx : findVal h (sectionsNaive content).reverse <;> simp [orO, findVal, hx]
  refine ⟨?_, hfv, splitSectionsL_dropWhile (splitLines content)⟩
  have hmem : h ∈ (sectionsNaive content).map Prod.fst := by
    have hpos : 0 < (sectionsNaive content).countP (fun p => decide (p.1 = h)) := by omega
    obtain ⟨p, hp, hpk⟩ := List.countP_pos_iff.mp hpos
    simp only [decide_eq_true_eq] at hpk
    exact hpk ▸ List.mem_map_of_mem Prod.fst hp
  have hrev : h ∈ ((sectionsNaive content).reverse.map Prod.fst) := by
    rw [List.map_reverse, List.mem_reverse]
    exact hmem
  have hsome : (findVal h (splitSections content)).isSome := by
    rw [hfv]
    exact (findVal_isSome_iff h _).mpr hrev
  have hnodup : ((splitSections content).map Prod.fst).Nodup := by
    rw [heq]
    exact keys_nodup_applyUpdates _ [] (by simp)
  exact countP_key_eq_one h _ hnodup hsome

/-- C6 witness: the duplicate-heading document `"# A\nx\n# A\ny"`. -/
theorem C6_witness :
    2 ≤ (sectionsNaive (S ("# A\nx\n# A\ny"))).countP
        (fun p => decide (p.1 = S ("A"))) ∧
      ((splitSections (S ("# A\nx\n# A\ny"))).countP
          (fun p => decide (p.1 = S ("A"))) = 1 ∧
        findVal (S ("A")) (splitSections (S ("# A\nx\n# A\ny"))) =
          findVal (S ("A")) (sectionsNaive (S ("# A\nx\n# A\ny"))).reverse ∧
        splitSectionsL ((splitLines (S ("# A\nx\n# A\ny"))).dropWhile
            (fun l => !isHeadingLine l)) =
          splitSections (S ("# A\nx\n# A\ny"))) :=
  ⟨by decide, C6_last_write_wins (S ("# A\nx\n# A\ny")) (S ("A")) (by decide)⟩

/- ===== C9 ===== -/

theorem dchar_val : ∀ d : Nat, d < 10 → digitVal (dchar d) = d := by decide

theorem dchar_digit (d : Nat) : isDigit (dchar d) = true := by
  unfold dchar
  have h : d % 10 < 10 := Nat.mod_lt d (by norm_num)
  generalize d % 10 = r at *
  interval_cases r <;> decide

theorem natOfDigits_append (s : Str) (c : Char) :
    natOfDigits (s ++ [c]) = 10 * natOfDigits s + digitVal c := by
  simp [natOfDigits, List.foldl_append]

theorem natReprGo_val : ∀ (fuel n : Nat), n ≤ fuel → natOfDigits (natReprGo fuel n) = n
  | 0, n, h => by
    have hn : n = 0 := Nat.le_zero.mp h
    subst hn
    decide
  | fuel + 1, n, h => by
    by_cases hn : n < 10
    · simp [natReprGo, hn, natOfDigits, dchar_val n hn]
    · have hdiv : n / 10 ≤ fuel := by omega
      simp only [natReprGo, hn, if_false, natOfDigits_append,
        natReprGo_val fuel (n / 10) hdiv, dchar_val (n % 10) (Nat.mod_lt n (by norm_num))]
      omega

theorem natRepr_val (n : Nat) : natOfDigits (natRepr n) = n :=
  natReprGo_val n n le_rfl

theorem natRepr_inj {m n : Nat} (h : natRepr m = natRepr n) : m = n := by
  have := congrArg natOfDigits h
  rwa [natRepr_val, natRepr_val] at this

theorem natReprGo_digits : ∀ (fuel n : Nat) (c : Char), c ∈ natReprGo fuel n → isDigit c = true
  | 0, n, c, h => by
    simp only [natReprGo, List.mem_singleton] at h
    exact h ▸ dchar_digit n
  | fuel + 1, n, c, h => by
    by_cases hn : n < 10
    · simp only [natReprGo, hn, if_true, List.mem_singleton] at h
      exact h ▸ dchar_digit n
    · simp only [natReprGo, hn, if_false, List.mem_append, List.mem_singleton] at h
      cases h with
      | inl h => exact natReprGo_digits fuel (n / 10) c h
      | inr h => exact h ▸ dchar_digit (n % 10)

theorem underscore_not_mem_natRepr (n : Nat) : '_' ∉ natRepr n := by
  intro h
  have := natReprGo_digits n n '_' h
  simp [isDigit] at this

theorem sep_append_inj :
    ∀ (a b d1 d2 : Str), '_' ∉ d1 → '_' ∉ d2 →
      a ++ '_' :: d1 = b ++ '_' :: d2 → a = b ∧ d1 = d2
  | [], [], d1, d2, _, _, h => by
    simp only [List.nil_append, List.cons.injEq] at h
    exact ⟨rfl, h.2⟩
  | [], c :: b, d1, d2, h1, _, h => by
    simp only [List.nil_append, List.cons_append, List.cons.injEq] at h
    exact absurd (h.2 ▸ List.mem_append_right b (List.mem_cons_self '_' d2)) h1
  | c :: a, [], d1, d2, _, h2, h => by
    simp only [List.nil_append, List.cons_append, List.cons.injEq] at h
    exact absurd (h.2.symm ▸ List.mem_append_right a (List.mem_cons_self '_' d1)) h2
  | c :: a, c' :: b, d1, d2, h1, h2, h => by
    simp only [List.cons_append, List.cons.injEq] at h
    have ih := sep_append_inj a b d1 d2 h1 h2 h.2
    exact ⟨by rw [h.1, ih.1], ih.2⟩

theorem rubricName_inj {h1 h2 : Str} {i j : Nat}
    (he : rubricName h1 i = rubricName h2 j) : h1 = h2 ∧ i = j := by
  unfold rubricName at he
  have hs := sep_append_inj h1 h2 (natRepr i) (natRepr j)
    (underscore_not_mem_natRepr i) (underscore_not_mem_natRepr j) he
  exact ⟨hs.1, natRepr_inj hs.2⟩

theorem map_name_flatMap {α : Type} (f : α → List RubricItem) :
    ∀ l : List α, ((l.flatMap f).map (·.name)) = l.flatMap fun a => (f a).map (·.name)
  | [] => rfl
  | a :: l => by
    simp only [List.flatMap_cons, List.map_append, map_name_flatMap f l]

theorem sectionRubrics_names (p : Str × Str) :
    ((sectionRubrics p).map (·.name)) =
      (List.range (extractListItems p.2).length).map (rubricName p.1) ∨
      ((sectionRubrics p).map (·.name)) = [] := by
  unfold sectionRubrics
  cases classifySection p.1 with
  | none => exact Or.inr rfl
  | some cat =>
    left
    simp only [List.map_map]
    rw [← List.enum_map_fst (extractListItems p.2), List.map_map]
    rfl

theorem sectionRubrics_names_nodup (p : Str × Str) :
    (((sectionRubrics p).map (·.name))).Nodup := by
  cases sectionRubrics_names p with
  | inl h =>
    rw [h]
    exact (List.nodup_range _).map fun i j hij => (rubricName_inj hij).2
  | inr h => simp [h]

theorem mem_sectionRubrics_names {p : Str × Str} {x : Str}
    (h : x ∈ (sectionRubrics p).map (·.name)) : ∃ i, x = rubricName p.1 i := by
  cases sectionRubrics_names p with
  | inl hn =>
    rw [hn] at h
    obtain ⟨i, _, hix⟩ := List.mem_map.mp h
    exact ⟨i, hix.symm⟩
  | inr hn => rw [hn] at h; exact absurd h (List.not_mem_nil x)

theorem flatMap_names_nodup :
    ∀ l : List (Str × Str), (l.map Prod.fst).Nodup →
      ((l.flatMap sectionRubrics).map (·.name)).Nodup
  | [], _ => by simp
  | p :: ps, h => by
    simp only [List.map_cons, List.nodup_cons] at h
    rw [map_name_flatMap, List.flatMap_cons, List.nodup_append]
    refine ⟨sectionRubrics_names_nodup p, ?_, ?_⟩
    · rw [← map_name_flatMap]
      exact flatMap_names_nodup ps h.2
    · intro x hx hx'
      obtain ⟨i, hxi⟩ := mem_sectionRubrics_names hx
      obtain ⟨q, hq, hxq⟩ := List.mem_flatMap.mp hx'
      obtain ⟨j, hxj⟩ := mem_sectionRubrics_names hxq
      have heq : p.1 = q.1 := (rubricName_inj (hxi ▸ hxj)).1
      exact h.1 (heq ▸ List.mem_map_of_mem Prod.fst hq)

theorem splitSections_keys_nodup (content : Str) :
    ((splitSections content).map Prod.fst).Nodup := by
  have heq : splitSections content = applyUpdates [] (sectionsNaive content) :=
    splitSecGo_eq_naive (splitLines content) none [] []
  rw [heq]
  exact keys_nodup_applyUpdates _ [] (by simp)

/-- C9 (confirmed): the names of the rubric items returned by
`extract_rubrics` are pairwise distinct: section headings are dict keys and
hence unique, the item index is unique within a section, and
`"{heading}_{index}"` with an underscore-free decimal index is injective in
the (heading, index) pair. -/
theorem C9_rubric_names_distinct (content : Str) :
    ((extractRubrics content).map (·.name)).Nodup := by
  unfold extractRubrics
  exact flatMap_names_nodup (splitSections content) (splitSections_keys_nodup content)
